import Mathlib

/-!
Verification development for the photo-availability checker (`src/app.py`).

The program extracts aircraft registration codes from uploaded text or
tabular data, probes three external image catalogs for photographs of each
code, and aggregates the outcomes into one report table.  This file embeds
the pure core of the program — the registration-pattern extractor, the
retrying HTTP fetch, the three provider probes, the concurrent dispatcher's
ordering behaviour, and the report-column selection — and proves the spec's
claims about them.
-/

namespace PhotoChecker

/-! ### Character classes (ASCII model of the Python regex classes) -/

/-- `[A-Z0-9]` — the character class used in shape (a) of the registration
pattern on line 51 of `app.py`. -/
def isRegChar (c : Char) : Bool :=
  (decide (65 ≤ c.toNat) && decide (c.toNat ≤ 90)) ||
  (decide (48 ≤ c.toNat) && decide (c.toNat ≤ 57))

/-- `\d` (ASCII) — decimal digits. -/
def isDigitChar (c : Char) : Bool :=
  decide (48 ≤ c.toNat) && decide (c.toNat ≤ 57)

/-- `[A-Z]` — the optional trailing letter of the N-number shape. -/
def isUpperChar (c : Char) : Bool :=
  decide (65 ≤ c.toNat) && decide (c.toNat ≤ 90)

/-- `\w` (ASCII) — word characters, used by the `\b` word boundaries. -/
def isWordChar (c : Char) : Bool :=
  (decide (65 ≤ c.toNat) && decide (c.toNat ≤ 90)) ||
  (decide (97 ≤ c.toNat) && decide (c.toNat ≤ 122)) ||
  (decide (48 ≤ c.toNat) && decide (c.toNat ≤ 57)) ||
  decide (c.toNat = 95)

/-- Length of the longest prefix of `cs` whose characters all satisfy `p`
(the extent of a greedy character-class repetition). -/
def takeRun (p : Char → Bool) : List Char → Nat
  | [] => 0
  | c :: cs => if p c then takeRun p cs + 1 else 0

/-- `\b` after a match whose last character is a word character: holds at
end of input or when the next character is not a word character. -/
def noWordAhead : List Char → Bool
  | [] => true
  | c :: _ => !isWordChar c

/-! ### The registration pattern `\b(?:[A-Z0-9]{1,3}-[A-Z0-9]{1,5}|N\d{1,5}[A-Z]?)\b`

Because `-` is outside `[A-Z0-9]`, the greedy repetition `[A-Z0-9]{1,3}`
can only ever stop exactly at the end of the maximal class run (backtracking
to a shorter prefix always fails: the next character would again be a class
character, not `-`); likewise the trailing `\b` forces the second and the
digit repetitions to the end of their runs.  The matchers below are that
backtracking-free residue of the Python regex. -/

/-- Match of the alternative `[A-Z0-9]{1,3}-[A-Z0-9]{1,5}\b` at the head of
`cs`; returns the matched length. -/
def shapeAMatch (cs : List Char) : Option Nat :=
  if 1 ≤ takeRun isRegChar cs ∧ takeRun isRegChar cs ≤ 3 then
    match cs.drop (takeRun isRegChar cs) with
    | c :: t =>
      if c = '-' then
        if 1 ≤ takeRun isRegChar t ∧ takeRun isRegChar t ≤ 5 ∧
            noWordAhead (t.drop (takeRun isRegChar t)) = true then
          some (takeRun isRegChar cs + 1 + takeRun isRegChar t)
        else none
      else none
    | [] => none
  else none

/-- Match of the alternative `N\d{1,5}[A-Z]?\b` at the head of `cs`. -/
def shapeBMatch : List Char → Option Nat
  | [] => none
  | c :: rest =>
    if c = 'N' then
      if 1 ≤ takeRun isDigitChar rest ∧ takeRun isDigitChar rest ≤ 5 then
        match rest.drop (takeRun isDigitChar rest) with
        | [] => some (1 + takeRun isDigitChar rest)
        | c2 :: t2 =>
          if isUpperChar c2 = true ∧ noWordAhead t2 = true then
            some (1 + takeRun isDigitChar rest + 1)
          else if isWordChar c2 = false then some (1 + takeRun isDigitChar rest)
          else none
      else none
    else none

/-- The full alternation, first alternative preferred (Python tries the
alternatives left to right). -/
def altMatch (cs : List Char) : Option Nat :=
  match shapeAMatch cs with
  | some n => some n
  | none => shapeBMatch cs

/-- `re.findall` over the text: scan left to right; a match may only start
where `\b` holds (the previous character, if any, is not a word character —
every match starts with a word character); matches are non-overlapping.
The fuel argument (initially the text length) only serves structural
recursion: every step consumes at least one character, so fuel never runs
out while characters remain. -/
def scanFuel : Nat → Bool → List Char → List String
  | 0, _, _ => []
  | _ + 1, _, [] => []
  | fuel + 1, prevW, c :: rest =>
    if prevW then scanFuel fuel (isWordChar c) rest
    else
      match altMatch (c :: rest) with
      | some n => ((c :: rest).take n).asString :: scanFuel fuel true ((c :: rest).drop n)
      | none => scanFuel fuel (isWordChar c) rest

/-- `pattern.findall(txt)` for the registration pattern of line 51. -/
def pyFindall (s : String) : List String :=
  scanFuel s.data.length false s.data

/-- The registration pattern accepts the token `s`: the alternation matches
all of `s`.  (With the whole string consumed, the surrounding `\b`
boundaries hold automatically, both ends of the match being ends of the
string next to word characters.) -/
def regexAccepts (s : String) : Prop :=
  altMatch s.data = some s.data.length

/-- Shape (a) as the spec words it: "one to three alphanumeric characters,
a hyphen, one to five alphanumeric characters".  Per §3 a RegistrationCode
is a *normalized* (uppercase) token, so "alphanumeric" here denotes the
uppercase letters and the digits. -/
def SpecShapeA (s : String) : Prop :=
  ∃ x y : List Char, s.data = x ++ '-' :: y ∧
    1 ≤ x.length ∧ x.length ≤ 3 ∧ 1 ≤ y.length ∧ y.length ≤ 5 ∧
    (∀ c ∈ x, isRegChar c = true) ∧ (∀ c ∈ y, isRegChar c = true)

/-- Shape (b) as the spec words it: "the single letter `N` followed by one
to five digits and an optional trailing letter". -/
def SpecShapeB (s : String) : Prop :=
  ∃ d t : List Char, s.data = 'N' :: (d ++ t) ∧
    1 ≤ d.length ∧ d.length ≤ 5 ∧ (∀ c ∈ d, isDigitChar c = true) ∧
    (t = [] ∨ ∃ c, t = [c] ∧ isUpperChar c = true)

/-! ### Identifier Extractor (`extract_regs`, `load_regs`) -/

/-- The column selector: `df.iloc[:, col] if isinstance(col, int) else df[col]`. -/
inductive ColSel
  | idx (i : Nat)
  | name (s : String)

/-- A tabular dataset: named columns of cell texts (`dtype=str`). -/
abbrev DataFrame : Type := List (String × List String)

/-- `extract_regs(df, col)`: scan every cell of the selected column with the
registration pattern, collect all matches into a set, return them sorted
(`sorted(regs)`). -/
def extract_regs (df : DataFrame) (col : ColSel) : List String :=
  List.insertionSort (· ≤ ·)
    (((match col with
        | ColSel.idx i => ((df.get? i).map Prod.snd).getD []
        | ColSel.name s =>
          ((df.find? (fun c : String × List String => c.1 = s)).map Prod.snd).getD []
      ).flatMap pyFindall).dedup)

/-- Python `str.strip()` whitespace set (ASCII). -/
def isSpaceChar (c : Char) : Bool :=
  c = ' ' || c = '\t' || c = '\n' || c = '\r' || c.toNat = 11 || c.toNat = 12

/-- Python `l.strip()`. -/
def pyStrip (s : String) : String :=
  (((s.data.dropWhile isSpaceChar).reverse.dropWhile isSpaceChar).reverse).asString

/-- The `.txt` branch of `load_regs`:
`sorted({l.strip() for l in text.splitlines() if l.strip()})`. -/
def loadRegsTxt (content : String) : List String :=
  List.insertionSort (· ≤ ·)
    ((((content.splitOn "\n").map pyStrip).filter (fun l => l ≠ "")).dedup)

/-! ### Resilient HTTP client
`Retry(total=3, backoff_factor=0.5, status_forcelist=[429,500,502,503,504])`
mounted on the shared `requests.Session` (lines 37–41). -/

/-- One observed response of the network on a given attempt. -/
inductive Resp
  | connFail
  | ok (status : Nat) (body : String) (finalUrl : String)
deriving DecidableEq

def forcelist : List Nat := [429, 500, 502, 503, 504]

/-- A response triggers a retry iff it is a connection failure or its status
is in the forcelist. -/
def retryableResp : Resp → Bool
  | Resp.connFail => true
  | Resp.ok s _ _ => forcelist.contains s

/-- The retry loop: attempt `a` against the network behaviour `net`
(`net k` = the response to attempt `k`), with `left` retries remaining.
Returns the definitive outcome together with the number of attempts made.
Exhausting retries (on a connection failure or a forcelist status, with
`raise_on_status` left at its default) raises inside `session.get`, which
the embedding renders as `Except.error`. -/
def fetchAux (net : Nat → Resp) : Nat → Nat → Except Unit (Nat × String × String) × Nat
  | a, 0 =>
    match net a with
    | Resp.connFail => (Except.error (), a + 1)
    | Resp.ok s body final =>
      if forcelist.contains s then (Except.error (), a + 1)
      else (Except.ok (s, body, final), a + 1)
  | a, l + 1 =>
    match net a with
    | Resp.connFail => fetchAux net (a + 1) l
    | Resp.ok s body final =>
      if forcelist.contains s then fetchAux net (a + 1) l
      else (Except.ok (s, body, final), a + 1)

/-- `session.get(url, timeout=timeout)` with `Retry(total=3, ...)`. -/
def sessionGet (net : Nat → Resp) : Except Unit (Nat × String × String) :=
  (fetchAux net 0 3).1

/-- Number of attempts `session.get` makes against `net` (1 initial + retries). -/
def fetchAttempts (net : Nat → Resp) : Nat :=
  (fetchAux net 0 3).2

/-- `backoff_factor=0.5`: the sleep before the `k`-th retry (0-based), as
computed by urllib3's `Retry.get_backoff_time`.  With `k + 1` consecutive
errors in the history, it returns 0 when `consecutive_errors_len <= 1`
(no sleep before the first retry) and otherwise
`backoff_factor * 2 ** (consecutive_errors_len - 1) = 0.5 * 2^k`, capped
at `BACKOFF_MAX = 120` — so the sleeps of a run are 0, 1, 2, … . -/
def backoffDelay (k : Nat) : ℚ :=
  if k = 0 then 0 else min 120 ((1 / 2) * 2 ^ k)

/-- The backoff delays slept during a `session.get` against `net`: one
delay per retry performed. -/
def fetchDelays (net : Nat → Resp) : List ℚ :=
  (List.range (fetchAttempts net - 1)).map backoffDelay

/-! ### `urllib.parse.quote_plus` (ASCII model) -/

def hexDigitChar (n : Nat) : Char :=
  if n < 10 then Char.ofNat (48 + n) else Char.ofNat (55 + n)

/-- Characters `quote_plus` leaves unescaped: letters, digits, `_.-~`. -/
def quotePlusSafe (c : Char) : Bool :=
  (decide (65 ≤ c.toNat) && decide (c.toNat ≤ 90)) ||
  (decide (97 ≤ c.toNat) && decide (c.toNat ≤ 122)) ||
  (decide (48 ≤ c.toNat) && decide (c.toNat ≤ 57)) ||
  c = '_' || c = '.' || c = '-' || c = '~'

def quote_plus (s : String) : String :=
  String.join (s.data.map (fun c =>
    if quotePlusSafe c then String.singleton c
    else if c = ' ' then "+"
    else String.singleton '%' ++ String.singleton (hexDigitChar (c.toNat / 16)) ++
      String.singleton (hexDigitChar (c.toNat % 16))))

/-! ### Marker regexes of Probe A and Probe B

`re.search(r'<img[^>]+class="[^"]*h-auto[^"]*max-h-\[155px\][^"]*"', text)`
and `re.search(r'<figure[^>]+class="[^"]*woocom-project[^"]*"', text)`.
`re.search` is pure existence of a match, so the embedding is a decidable
existential over split positions. -/

def startsWithChars : List Char → List Char → Bool
  | [], _ => true
  | _ :: _, [] => false
  | p :: ps, c :: cs => p = c && startsWithChars ps cs

/-- The tokens occur in the given order, each starting at or after the end
of the previous one (the `[^"]*tok1[^"]*tok2[^"]*` skeleton, restricted to
a span already known to be quote-free). -/
def inOrderTokens : List (List Char) → List Char → Bool
  | [], _ => true
  | t :: ts, cs =>
    (List.range (cs.length + 1)).any (fun i =>
      startsWithChars t (cs.drop i) && inOrderTokens ts (cs.drop (i + t.length)))

/-- `[^"]*…tokens…[^"]*"` starting at `cs`: some quote-free span of length
`e` containing the tokens in order, followed by a literal `"`. -/
def quoteSpanOK (tokens : List (List Char)) (cs : List Char) : Bool :=
  (List.range (cs.length + 1)).any (fun e =>
    decide ((cs.take e).length = e) &&
    (cs.take e).all (fun c => !(c = '"')) &&
    startsWithChars ['"'] (cs.drop e) &&
    inOrderTokens tokens (cs.take e))

/-- `tag[^>]+class="[^"]*tok…[^"]*"` anywhere in `body`. -/
def classMarker (tag : String) (tokens : List String) (body : String) : Bool :=
  (List.range (body.data.length + 1)).any (fun i =>
    startsWithChars tag.data (body.data.drop i) &&
    ((List.range ((body.data.drop (i + tag.data.length)).length + 1)).any (fun g =>
      decide (1 ≤ g) &&
      decide (((body.data.drop (i + tag.data.length)).take g).length = g) &&
      ((body.data.drop (i + tag.data.length)).take g).all (fun c => !(c = '>')) &&
      startsWithChars "class=\"".data ((body.data.drop (i + tag.data.length)).drop g) &&
      quoteSpanOK (tokens.map String.data)
        ((body.data.drop (i + tag.data.length)).drop (g + 7)))))

/-- Probe A's marker: an `<img>` whose class contains `h-auto` and
`max-h-[155px]`. -/
def atiMarker (body : String) : Bool :=
  classMarker "<img" ["h-auto", "max-h-[155px]"] body

/-- Probe B's marker: a `<figure>` whose class contains `woocom-project`. -/
def v1FigMarker (body : String) : Bool :=
  classMarker "<figure" ["woocom-project"] body

/-! ### Provider probes -/

/-- Python `url.rstrip('/')`. -/
def rstripSlash (s : String) : String :=
  ((s.data.reverse.dropWhile (fun c => c = '/')).reverse).asString

def atiUrl (reg : String) : String :=
  "https://www.airteamimages.com/search?q=" ++ quote_plus reg ++ "&sort=id%2Cdesc"

def v1Url (reg : String) : String :=
  "https://www.v1images.com/?s=" ++ quote_plus reg ++ "&post_type=product&orderby=date-DESC"

def ainUrl (reg : String) : String :=
  "https://www.aviationimagenetwork.com/search/?n=aviationimagenetwork&scope=node&scopeValue=cm8GDr&c=photos&q=" ++
    quote_plus reg

/-- Probe A (`search_airteam`): GET the search URL; any request error or
non-2xx status (after retries) is caught by the bare `except` and downgraded
to `(False, '')`; otherwise report whether the marker image is present, with
the search URL as the link. -/
def search_airteam (net : Nat → Resp) (reg : String) (timeout : Nat) : Bool × String :=
  match sessionGet net with
  | Except.error _ => (false, "")
  | Except.ok (s, body, _) =>
    if 400 ≤ s then (false, "")
    else (atiMarker body, atiUrl reg)

/-- Probe B (`search_v1`): found iff the final URL differs from the request
URL modulo trailing slashes, or the body contains the `<figure>` marker;
the link is the final URL when found, else empty. -/
def search_v1 (net : Nat → Resp) (reg : String) (timeout : Nat) : Bool × String :=
  match sessionGet net with
  | Except.error _ => (false, "")
  | Except.ok (s, body, final) =>
    if 400 ≤ s then (false, "")
    else
      (decide (rstripSlash final ≠ rstripSlash (v1Url reg)) || v1FigMarker body,
       if decide (rstripSlash final ≠ rstripSlash (v1Url reg)) || v1FigMarker body then final
       else "")

/-- Observable behaviour of the Selenium layer for one `search_ain` call:
navigation failure, explicit-wait timeout, or a loaded page on which the
re-query finds `thumbs` smugmug thumbnails. -/
inductive AinBehavior
  | navFail
  | waitTimeout
  | loaded (thumbs : Nat)
deriving DecidableEq

/-- Probe C (`search_ain`): exceptions from `driver.get` / `WebDriverWait`
are swallowed by the bare `except` and fall through to `(False, '')`;
otherwise found iff at least one smugmug thumbnail exists. -/
def search_ain (b : AinBehavior) (reg : String) (timeout : Nat) : Bool × String :=
  match b with
  | AinBehavior.navFail => (false, "")
  | AinBehavior.waitTimeout => (false, "")
  | AinBehavior.loaded thumbs => if 0 < thumbs then (true, ainUrl reg) else (false, "")

/-! ### Concurrent dispatcher and report aggregation (lines 143–156)

`ThreadPoolExecutor.map(check, regs)` yields the results of `check` in the
order of `regs` whatever the worker count, and the loop appends them in
that order, so the value of `results` is the in-order image of `check`. -/

/-- The run configuration: provider checkboxes, worker count, timeout. -/
structure RunCfg where
  check_ati : Bool
  check_v1 : Bool
  check_ain : Bool
  workers : Nat
  timeout : Nat

/-- One cell of a result record: a string or a boolean flag. -/
inductive Cell
  | str (v : String)
  | flag (v : Bool)
deriving DecidableEq

/-- The external world for one run: per registration, the network behaviour
seen by each HTTP probe (indexed by attempt) and by the Selenium probe. -/
structure Env where
  ati : String → Nat → Resp
  v1 : String → Nat → Resp
  ain : String → AinBehavior

/-- `check(reg)`: build the dict `e` for one registration, inserting a
(flag, link) pair per enabled provider in the fixed order ATI, V1, AIN. -/
def check (env : Env) (cfg : RunCfg) (reg : String) : List (String × Cell) :=
  [("Registration", Cell.str reg)] ++
  (if cfg.check_ati then
    [("AirTeamImages", Cell.flag (search_airteam (env.ati reg) reg cfg.timeout).1),
     ("ATI_Link", Cell.str (search_airteam (env.ati reg) reg cfg.timeout).2)]
   else []) ++
  (if cfg.check_v1 then
    [("V1Images", Cell.flag (search_v1 (env.v1 reg) reg cfg.timeout).1),
     ("V1_Link", Cell.str (search_v1 (env.v1 reg) reg cfg.timeout).2)]
   else []) ++
  (if cfg.check_ain then
    [("AIN", Cell.flag (search_ain (env.ain reg) reg cfg.timeout).1),
     ("AIN_Link", Cell.str (search_ain (env.ain reg) reg cfg.timeout).2)]
   else [])

/-- `results` after the `ThreadPoolExecutor` loop: one record per code, in
input order. -/
def runChecks (env : Env) (cfg : RunCfg) (regs : List String) :
    List (List (String × Cell)) :=
  regs.map (check env cfg)

/-- The `Registration` entry of a result record. -/
def rowReg (row : List (String × Cell)) : String :=
  match row.find? (fun kv => kv.1 = "Registration") with
  | some (_, Cell.str r) => r
  | _ => ""

/-- Column set of `pd.DataFrame(results)`: the union of the records' keys in
first-appearance order. -/
def dfColumns (rows : List (List (String × Cell))) : List String :=
  rows.foldl (fun acc row =>
    row.foldl (fun a kv => if a.contains kv.1 then a else a ++ [kv.1]) acc) []

/-- `df[[...]]` column selection: pandas raises `KeyError` when a requested
column is absent from the frame; otherwise it projects every row onto the
requested columns. -/
def dfSelect (rows : List (List (String × Cell))) (req : List String) :
    Except String (List (List (String × Cell))) :=
  if req.all (fun k => (dfColumns rows).contains k) then
    Except.ok (rows.map (fun row =>
      req.map (fun k =>
        (k, ((row.find? (fun kv => kv.1 = k)).map Prod.snd).getD (Cell.str "NaN")))))
  else Except.error "KeyError"

/-- The hard-coded column list of line 156. -/
def reportCols : List String :=
  ["Registration", "AirTeamImages", "ATI_Link", "V1Images", "V1_Link", "AIN", "AIN_Link"]

/-- `df_out = pd.DataFrame(results)[[...]]` (line 156). -/
def df_out (env : Env) (cfg : RunCfg) (regs : List String) :
    Except String (List (List (String × Cell))) :=
  dfSelect (runChecks env cfg regs) reportCols

/-! ### Concrete instances used by the claim theorems -/

/-- A network that refuses every connection, and a failing browser. -/
def envFail : Env :=
  ⟨fun _ _ => Resp.connFail, fun _ _ => Resp.connFail, fun _ => AinBehavior.navFail⟩

/-- The UI's default configuration: AirTeamImages and V1Images checked,
Aviation Image Network unchecked (line 126–128), 1 worker, 10 s timeout. -/
def cfgDefault : RunCfg := ⟨true, true, false, 1, 10⟩

/-- A body containing Probe A's marker image. -/
def markerBody : String := "<img x class=\"h-auto max-h-[155px]\">"

/-- Three 503 responses followed by a 200 whose body holds the marker. -/
def net503 : Nat → Resp := fun k =>
  if k < 3 then Resp.ok 503 "" (atiUrl "N123A")
  else Resp.ok 200 markerBody (atiUrl "N123A")

/-! ### Facts about the retry loop -/

theorem fetchAux_snd_zero (net : Nat → Resp) (a : Nat) :
    (fetchAux net a 0).2 = a + 1 := by
  simp only [fetchAux]
  cases net a
  · rfl
  · dsimp only
    split <;> rfl

theorem fetchAux_snd_le (net : Nat → Resp) :
    ∀ l a, (fetchAux net a l).2 ≤ a + l + 1 := by
  intro l
  induction l with
  | zero => intro a; rw [fetchAux_snd_zero]
  | succ l ih =>
    intro a
    simp only [fetchAux]
    cases net a
    · exact le_trans (ih (a + 1)) (by omega)
    · dsimp only
      split
      · exact le_trans (ih (a + 1)) (by omega)
      · simp

theorem fetchAux_retryable (net : Nat → Resp) :
    ∀ l a k, a ≤ k → k + 1 < (fetchAux net a l).2 → retryableResp (net k) = true := by
  intro l
  induction l with
  | zero =>
    intro a k hak h
    rw [fetchAux_snd_zero] at h
    omega
  | succ l ih =>
    intro a k hak h
    simp only [fetchAux] at h
    rcases Nat.eq_or_lt_of_le hak with heq | hlt
    · subst heq
      cases hr : net a
      · rfl
      · rename_i s body final
        rw [hr] at h
        dsimp only at h
        by_cases hc : forcelist.contains s
        · exact hc
        · rw [if_neg hc] at h
          simp at h
    · cases hr : net a
      · rw [hr] at h
        exact ih (a + 1) k (by omega) h
      · rename_i s body final
        rw [hr] at h
        dsimp only at h
        by_cases hc : forcelist.contains s
        · rw [if_pos hc] at h
          exact ih (a + 1) k (by omega) h
        · rw [if_neg hc] at h
          simp at h
          omega

/-! ### Facts about the pattern matcher -/

theorem takeRun_le (p : Char → Bool) (cs : List Char) : takeRun p cs ≤ cs.length := by
  induction cs with
  | nil => simp [takeRun]
  | cons c cs ih =>
    simp only [takeRun, List.length_cons]
    split <;> omega

theorem takeRun_take (p : Char → Bool) (cs : List Char) :
    ∀ c ∈ cs.take (takeRun p cs), p c = true := by
  induction cs with
  | nil => simp
  | cons c cs ih =>
    simp only [takeRun]
    split
    · rename_i hp
      intro a ha
      rw [List.take_succ_cons] at ha
      rcases List.mem_cons.mp ha with rfl | ha2
      · exact hp
      · exact ih a ha2
    · intro a ha
      simp at ha

theorem takeRun_eq_of_all (p : Char → Bool) (cs : List Char)
    (h : ∀ c ∈ cs, p c = true) : takeRun p cs = cs.length := by
  induction cs with
  | nil => rfl
  | cons c cs ih =>
    simp only [takeRun]
    rw [if_pos (h c (List.mem_cons_self c cs))]
    rw [ih (fun a ha => h a (List.mem_cons_of_mem c ha))]
    rfl

theorem takeRun_all_of_eq_length (p : Char → Bool) (cs : List Char)
    (h : takeRun p cs = cs.length) : ∀ c ∈ cs, p c = true := by
  have ht := takeRun_take p cs
  rw [h, List.take_length] at ht
  exact ht

theorem takeRun_append_stop (p : Char → Bool) (x : List Char) (c : Char) (y : List Char)
    (hx : ∀ a ∈ x, p a = true) (hc : p c = false) :
    takeRun p (x ++ c :: y) = x.length := by
  induction x with
  | nil => simp [takeRun, hc]
  | cons a x ih =>
    simp only [List.cons_append, takeRun]
    rw [if_pos (hx a (List.mem_cons_self a x))]
    simp only [List.append_eq]
    rw [ih (fun b hb => hx b (List.mem_cons_of_mem a hb))]
    rfl

theorem isRegChar_of_digit {c : Char} (h : isDigitChar c = true) : isRegChar c = true := by
  simp [isDigitChar, isRegChar] at *
  omega

theorem isRegChar_of_upper {c : Char} (h : isUpperChar c = true) : isRegChar c = true := by
  simp [isUpperChar, isRegChar] at *
  omega

theorem isDigitChar_false_of_upper {c : Char} (h : isUpperChar c = true) :
    isDigitChar c = false := by
  simp [isUpperChar, isDigitChar] at *
  omega

/-- What a successful shape-(a) match means. -/
theorem shapeAMatch_some {cs : List Char} {n : Nat} (h : shapeAMatch cs = some n) :
    ∃ t : List Char,
      1 ≤ takeRun isRegChar cs ∧ takeRun isRegChar cs ≤ 3 ∧
      cs.drop (takeRun isRegChar cs) = '-' :: t ∧
      1 ≤ takeRun isRegChar t ∧ takeRun isRegChar t ≤ 5 ∧
      noWordAhead (t.drop (takeRun isRegChar t)) = true ∧
      n = takeRun isRegChar cs + 1 + takeRun isRegChar t := by
  unfold shapeAMatch at h
  split at h
  · rename_i hcond
    split at h
    · rename_i c t hdrop
      split at h
      · rename_i hdash
        subst hdash
        split at h
        · rename_i hcond2
          exact ⟨t, hcond.1, hcond.2, hdrop, hcond2.1, hcond2.2.1, hcond2.2.2,
            (Option.some.inj h).symm⟩
        · simp at h
      · simp at h
    · simp at h
  · simp at h

/-- What a successful shape-(b) match means. -/
theorem shapeBMatch_some {cs : List Char} {n : Nat} (h : shapeBMatch cs = some n) :
    ∃ c rest, cs = c :: rest ∧ c = 'N' ∧
      1 ≤ takeRun isDigitChar rest ∧ takeRun isDigitChar rest ≤ 5 ∧
      ((rest.drop (takeRun isDigitChar rest) = [] ∧ n = 1 + takeRun isDigitChar rest) ∨
       (∃ c2 t2, rest.drop (takeRun isDigitChar rest) = c2 :: t2 ∧
         ((isUpperChar c2 = true ∧ noWordAhead t2 = true ∧
             n = 1 + takeRun isDigitChar rest + 1) ∨
          (isWordChar c2 = false ∧ n = 1 + takeRun isDigitChar rest)))) := by
  cases cs with
  | nil => simp [shapeBMatch] at h
  | cons c rest =>
    simp only [shapeBMatch] at h
    split at h
    · rename_i hN
      split at h
      · rename_i hr
        split at h
        · rename_i hdrop
          refine ⟨c, rest, rfl, hN, hr.1, hr.2, Or.inl ⟨hdrop, (Option.some.inj h).symm⟩⟩
        · rename_i c2 t2 hdrop
          split at h
          · rename_i hup
            exact ⟨c, rest, rfl, hN, hr.1, hr.2, Or.inr ⟨c2, t2, hdrop,
              Or.inl ⟨hup.1, hup.2, (Option.some.inj h).symm⟩⟩⟩
          · split at h
            · rename_i hw
              exact ⟨c, rest, rfl, hN, hr.1, hr.2, Or.inr ⟨c2, t2, hdrop,
                Or.inr ⟨by simpa using hw, (Option.some.inj h).symm⟩⟩⟩
            · simp at h
      · simp at h
    · simp at h

/-- Shape (a) matches a full well-formed `x ++ '-' :: y`. -/
theorem shapeAMatch_full {x y : List Char}
    (hx1 : 1 ≤ x.length) (hx3 : x.length ≤ 3) (hy1 : 1 ≤ y.length) (hy5 : y.length ≤ 5)
    (hxc : ∀ c ∈ x, isRegChar c = true) (hyc : ∀ c ∈ y, isRegChar c = true) :
    shapeAMatch (x ++ '-' :: y) = some (x.length + 1 + y.length) := by
  have hr1 : takeRun isRegChar (x ++ '-' :: y) = x.length :=
    takeRun_append_stop _ x '-' y hxc (by decide)
  have hr2 : takeRun isRegChar y = y.length := takeRun_eq_of_all _ y hyc
  unfold shapeAMatch
  rw [hr1, List.drop_left]
  dsimp only
  rw [if_pos ⟨hx1, hx3⟩, if_pos rfl, hr2, List.drop_length]
  rw [if_pos ⟨hy1, hy5, rfl⟩]

/-- Shape (a) never matches a string of pure class characters (there is no
hyphen for it to consume). -/
theorem shapeAMatch_none_of_all_reg {cs : List Char}
    (h : ∀ c ∈ cs, isRegChar c = true) : shapeAMatch cs = none := by
  have hr : takeRun isRegChar cs = cs.length := takeRun_eq_of_all _ cs h
  unfold shapeAMatch
  rw [hr]
  by_cases h3 : 1 ≤ cs.length ∧ cs.length ≤ 3
  · rw [if_pos h3, List.drop_length]
  · rw [if_neg h3]

/-- Shape (b) matches a full `N` + digits token. -/
theorem shapeBMatch_full_nolet {d : List Char} (hd1 : 1 ≤ d.length)
    (hd5 : d.length ≤ 5) (hdc : ∀ c ∈ d, isDigitChar c = true) :
    shapeBMatch ('N' :: d) = some (1 + d.length) := by
  have hr : takeRun isDigitChar d = d.length := takeRun_eq_of_all _ d hdc
  simp only [shapeBMatch, if_true]
  rw [hr, List.drop_length]
  rw [if_pos ⟨hd1, hd5⟩]

/-- Shape (b) matches a full `N` + digits + trailing letter token. -/
theorem shapeBMatch_full_letter {d : List Char} {c : Char} (hd1 : 1 ≤ d.length)
    (hd5 : d.length ≤ 5) (hdc : ∀ a ∈ d, isDigitChar a = true)
    (hc : isUpperChar c = true) :
    shapeBMatch ('N' :: (d ++ [c])) = some (1 + d.length + 1) := by
  have hr : takeRun isDigitChar (d ++ [c]) = d.length :=
    takeRun_append_stop _ d c [] hdc (isDigitChar_false_of_upper hc)
  simp only [shapeBMatch, if_true]
  rw [hr, List.drop_left]
  dsimp only
  rw [if_pos ⟨hd1, hd5⟩, if_pos ⟨hc, rfl⟩]

/-! ## Claim theorems -/

/-- **C1** — the claim says the report table carries a (flag, link) column
pair only for the enabled providers and that a run with no enabled
providers still emits one row per code.  The code instead hard-codes all
seven column names at line 156, so under the UI's default configuration
(Aviation Image Network unchecked) the records have no `AIN`/`AIN_Link`
keys and the pandas column selection raises `KeyError`; likewise with no
provider enabled.  The third conjunct exhibits the actual column set of the
frame, missing the two `AIN` columns that line 156 demands. -/
theorem c1_report_columns_keyerror :
    df_out envFail cfgDefault ["N123A"] = Except.error "KeyError" ∧
    df_out envFail ⟨false, false, false, 1, 10⟩ ["N123A"] = Except.error "KeyError" ∧
    dfColumns (runChecks envFail cfgDefault ["N123A"]) =
      ["Registration", "AirTeamImages", "ATI_Link", "V1Images", "V1_Link"] :=
  ⟨rfl, rfl, rfl⟩

/-- **C2** — the dispatcher's output list has one record per input code, in
exactly the input order: its length equals the input length and mapping
each record to its `Registration` entry recovers the input list itself
(so `output[i].code = input[i]` for every `i`), for every environment,
configuration (hence any worker count) and code list. -/
theorem c2_dispatch_preserves_order (env : Env) (cfg : RunCfg) (regs : List String) :
    (runChecks env cfg regs).length = regs.length ∧
    (runChecks env cfg regs).map rowReg = regs := by
  constructor
  · simp [runChecks]
  · induction regs with
    | nil => rfl
    | cons r rs ih =>
      have hr : rowReg (check env cfg r) = r := rfl
      simp only [runChecks, List.map_cons] at *
      rw [hr, ih]

/-- **C6, counterexample** — the claim says identifiers are uppercased
before matching, so the lowercase cell `"n123a"` should produce `"N123A"`.
It does not: the extractor applies no case normalization and the pattern
only matches uppercase text, so the output is empty. -/
theorem c6_counterexample :
    extract_regs [("Reg", ["n123a"])] (ColSel.name "Reg") = [] ∧
    "N123A" ∉ extract_regs [("Reg", ["n123a"])] (ColSel.name "Reg") := by
  refine ⟨rfl, ?_⟩
  intro hmem
  rw [show extract_regs [("Reg", ["n123a"])] (ColSel.name "Reg") = [] from rfl] at hmem
  exact List.not_mem_nil _ hmem

/-- **C6, amended** — the extractor is case-sensitive: no normalization is
applied, a cell holding a valid code written in lowercase yields nothing,
and only a code already written in uppercase is extracted (verbatim). -/
theorem c6_amended_case_sensitive :
    extract_regs [("Reg", ["n123a"])] (ColSel.idx 0) = [] ∧
    extract_regs [("Reg", ["N123A"])] (ColSel.idx 0) = ["N123A"] ∧
    extract_regs [("Reg", ["N123A"])] (ColSel.name "Reg") = ["N123A"] :=
  ⟨rfl, rfl, rfl⟩

/-- **C5, counterexample** — the claim says every probe returns an empty
evidence link whenever `found = false`.  Probe A does not: on a successful
fetch (HTTP 200) whose body lacks the marker it returns
`(False, search URL)` — line 68 returns `url` unconditionally. -/
theorem c5_counterexample :
    search_airteam (fun _ => Resp.ok 200 "<html>no images</html>" (atiUrl "N123A"))
      "N123A" 10 = (false, atiUrl "N123A") ∧
    atiUrl "N123A" ≠ "" := by
  exact ⟨rfl, by decide⟩

/-- **C5, amended** — probes B and C return an empty link whenever
`found = false`; probe A returns an empty link only when the fetch fails,
and on any successful fetch (status < 400) returns the search URL as the
link regardless of the `found` flag. -/
theorem c5_amended_links :
    (∀ net reg t, (search_v1 net reg t).1 = false → (search_v1 net reg t).2 = "") ∧
    (∀ b reg t, (search_ain b reg t).1 = false → (search_ain b reg t).2 = "") ∧
    (∀ net reg t e, sessionGet net = Except.error e → search_airteam net reg t = (false, "")) ∧
    (∀ net reg t s body final, sessionGet net = Except.ok (s, body, final) → s < 400 →
      (search_airteam net reg t).2 = atiUrl reg) := by
  refine ⟨?_, ?_, ?_, ?_⟩
  · intro net reg t
    rcases hg : sessionGet net with e | ⟨s, body, final⟩
    · simp [search_v1, hg]
    · by_cases hs : 400 ≤ s
      · simp [search_v1, hg, hs]
      · intro h1
        simp only [search_v1, hg] at h1 ⊢
        rw [if_neg hs] at h1 ⊢
        dsimp only at h1 ⊢
        rw [h1]
        simp
  · intro b reg t
    cases b with
    | navFail => simp [search_ain]
    | waitTimeout => simp [search_ain]
    | loaded n =>
      by_cases hn : 0 < n <;> simp [search_ain, hn]
  · intro net reg t e hg
    simp [search_airteam, hg]
  · intro net reg t s body final hg hs
    simp [search_airteam, hg, Nat.not_le.mpr hs]

/-- Witness for `c5_amended_links` at concrete inputs. -/
theorem c5_amended_links_witness :
    (search_v1 (fun _ => Resp.ok 200 "<p>" (v1Url "N1")) "N1" 10).2 = "" ∧
    (search_ain (AinBehavior.loaded 0) "N1" 10).2 = "" ∧
    search_airteam (fun _ => Resp.connFail) "N1" 10 = (false, "") ∧
    (search_airteam (fun _ => Resp.ok 200 "<p>" "u") "N1" 10).2 = atiUrl "N1" :=
  ⟨c5_amended_links.1 (fun _ => Resp.ok 200 "<p>" (v1Url "N1")) "N1" 10 (by decide),
   c5_amended_links.2.1 (AinBehavior.loaded 0) "N1" 10 (by decide),
   c5_amended_links.2.2.1 (fun _ => Resp.connFail) "N1" 10 () rfl,
   c5_amended_links.2.2.2 (fun _ => Resp.ok 200 "<p>" "u") "N1" 10 200 "<p>" "u" rfl
     (by decide)⟩

/-- The sleeps of the 503/503/503/200 scenario: `get_backoff_time` returns
0 before the first retry, then `0.5 · 2^k`. -/
theorem fetchDelays_net503 : fetchDelays net503 = [0, 1, 2] := by
  have h4 : fetchAttempts net503 = 4 := rfl
  simp only [fetchDelays, h4]
  norm_num [backoffDelay, min_def, List.range_succ]

/-- **C3, counterexample** — the claim's delay schedule ("0.5 times an
exponential term per attempt") fails at the first retry: urllib3's
`get_backoff_time` returns 0 while the history holds at most one error, so
the sleep before the first retry is 0, not `0.5 · 2^0 = 0.5`, and the
scenario's sleeps are 0, 1, 2 rather than 0.5, 1, 2. -/
theorem c3_counterexample :
    backoffDelay 0 = 0 ∧ backoffDelay 0 ≠ (1 / 2 : ℚ) * 2 ^ 0 ∧
    fetchDelays net503 = [0, 1, 2] ∧ fetchDelays net503 ≠ [1 / 2, 1, 2] := by
  refine ⟨by norm_num [backoffDelay], by norm_num [backoffDelay], fetchDelays_net503, ?_⟩
  rw [fetchDelays_net503]
  intro hcontra
  simp only [List.cons.injEq] at hcontra
  norm_num at hcontra

/-- **C3, amended** — the HTTP client makes at most 4 attempts (1 + 3
retries), retries only after a connection failure or a forcelist status
(429/500/502/503/504), and sleeps nothing before the first retry, then
`0.5 · 2^k` units before the `k`-th; on the 503/503/503/200-with-marker
scenario Probe A reports `found = true` with the search URL as evidence
after exactly 4 attempts, with sleeps 0, 1, 2. -/
theorem c3_amended_retry_semantics :
    (∀ net, fetchAttempts net ≤ 4) ∧
    (∀ net k, k + 1 < fetchAttempts net → retryableResp (net k) = true) ∧
    backoffDelay 0 = 0 ∧ backoffDelay 1 = 1 ∧ backoffDelay 2 = 2 ∧
    search_airteam net503 "N123A" 10 = (true, atiUrl "N123A") ∧
    fetchAttempts net503 = 4 ∧
    fetchDelays net503 = [0, 1, 2] := by
  refine ⟨?_, ?_, by norm_num [backoffDelay], by norm_num [backoffDelay, min_def],
    by norm_num [backoffDelay, min_def], rfl, rfl, fetchDelays_net503⟩
  · intro net
    exact fetchAux_snd_le net 3 0
  · intro net k hk
    exact fetchAux_retryable net 3 0 k (Nat.zero_le k) hk

/-- Witness for `c3_amended_retry_semantics` at a concrete input. -/
theorem c3_amended_retry_semantics_witness :
    retryableResp (net503 0) = true :=
  c3_amended_retry_semantics.2.1 net503 0 (by decide)

/-- **C7, counterexample** — the claim reads "final URL differs from the
requested URL ⟹ found": but the code compares the URLs after stripping
trailing `/`, so a final URL that differs from the search URL only by a
trailing slash (body without the figure marker) yields `found = false`. -/
theorem c7_counterexample :
    v1Url "N123A" ++ "/" ≠ v1Url "N123A" ∧
    search_v1 (fun _ => Resp.ok 200 "<html></html>" (v1Url "N123A" ++ "/")) "N123A" 10 =
      (false, "") :=
  ⟨by decide, rfl⟩

/-- **C7, amended** — if the final URL differs from the search URL *after
discarding trailing slashes on both sides*, Probe B reports `found = true`
with the final URL as evidence, regardless of the body. -/
theorem c7_amended_redirect (net : Nat → Resp) (reg : String) (t s : Nat)
    (body final : String) (hg : sessionGet net = Except.ok (s, body, final))
    (hs : s < 400) (hdiff : rstripSlash final ≠ rstripSlash (v1Url reg)) :
    search_v1 net reg t = (true, final) := by
  have hd : (decide (rstripSlash final ≠ rstripSlash (v1Url reg))) = true :=
    decide_eq_true hdiff
  simp [search_v1, hg, Nat.not_le.mpr hs, hd]

/-- Witness for `c7_amended_redirect` at a concrete input. -/
theorem c7_amended_redirect_witness :
    search_v1 (fun _ => Resp.ok 200 "<html></html>" "https://www.v1images.com/product/n123a/")
      "N123A" 10 = (true, "https://www.v1images.com/product/n123a/") :=
  c7_amended_redirect (fun _ => Resp.ok 200 "<html></html>"
      "https://www.v1images.com/product/n123a/") "N123A" 10 200 "<html></html>"
    "https://www.v1images.com/product/n123a/" rfl (by decide) (by decide)

/-- **C10** — Probe B's redirect signal ignores trailing slashes: when the
final URL equals the search URL up to trailing `/` characters, the outcome
is decided by the figure marker alone (`found` iff the body contains it). -/
theorem c10_redirect_slash_insensitive (net : Nat → Resp) (reg : String) (t s : Nat)
    (body final : String) (hg : sessionGet net = Except.ok (s, body, final))
    (hs : s < 400) (hsame : rstripSlash final = rstripSlash (v1Url reg)) :
    search_v1 net reg t = (v1FigMarker body, if v1FigMarker body then final else "") := by
  have hd : (decide (rstripSlash final ≠ rstripSlash (v1Url reg))) = false := by
    simp [hsame]
  simp [search_v1, hg, Nat.not_le.mpr hs, hd]

/-- Witness for `c10_redirect_slash_insensitive` at a concrete input. -/
theorem c10_redirect_slash_insensitive_witness :
    search_v1 (fun _ => Resp.ok 200 "<figure a class=\"woocom-project\">"
        (v1Url "N123A" ++ "/")) "N123A" 10 =
      (v1FigMarker "<figure a class=\"woocom-project\">",
        if v1FigMarker "<figure a class=\"woocom-project\">" then v1Url "N123A" ++ "/"
        else "") :=
  c10_redirect_slash_insensitive
    (fun _ => Resp.ok 200 "<figure a class=\"woocom-project\">" (v1Url "N123A" ++ "/"))
    "N123A" 10 200 "<figure a class=\"woocom-project\">" (v1Url "N123A" ++ "/") rfl
    (by decide) (by decide)

/-- **C9** — the registration pattern accepts exactly the two documented
shapes: (a) one to three class characters (uppercase letters/digits), a
hyphen, one to five class characters; (b) the letter `N`, one to five
digits, an optional trailing uppercase letter.  Every other string —
`"AB"` among them — is rejected. -/
theorem c9_pattern_shapes :
    (∀ s : String, regexAccepts s ↔ SpecShapeA s ∨ SpecShapeB s) ∧ ¬ regexAccepts "AB" := by
  constructor
  · intro s
    constructor
    · intro h
      unfold regexAccepts altMatch at h
      split at h
      · rename_i m hm
        left
        obtain ⟨t, h1, h3, hdrop, h21, h25, hnw, hn⟩ := shapeAMatch_some hm
        have hmn : m = s.data.length := Option.some.inj h
        have hrle : takeRun isRegChar s.data ≤ s.data.length := takeRun_le _ _
        have hsplit : s.data = s.data.take (takeRun isRegChar s.data) ++ '-' :: t := by
          conv_lhs => rw [(List.take_append_drop (takeRun isRegChar s.data) s.data).symm]
          rw [hdrop]
        have hxlen : (s.data.take (takeRun isRegChar s.data)).length =
            takeRun isRegChar s.data := by
          rw [List.length_take]
          omega
        have hlen := congrArg List.length hsplit
        simp only [List.length_append, List.length_cons] at hlen
        have htlen : t.length = takeRun isRegChar t := by omega
        refine ⟨s.data.take (takeRun isRegChar s.data), t, hsplit, by omega, by omega,
          by omega, by omega, ?_, ?_⟩
        · intro a ha
          exact takeRun_take _ _ a ha
        · intro a ha
          exact takeRun_all_of_eq_length _ t htlen.symm a ha
      · right
        obtain ⟨c, rest, hcs, hN, hr1, hr5, hcase⟩ := shapeBMatch_some h
        subst hN
        have hlen := congrArg List.length hcs
        simp only [List.length_cons] at hlen
        have hrle : takeRun isDigitChar rest ≤ rest.length := takeRun_le _ _
        rcases hcase with ⟨hdrop, hn⟩ | ⟨c2, t2, hdrop, hcase2⟩
        · have hr : takeRun isDigitChar rest = rest.length := by omega
          refine ⟨rest, [], by rw [List.append_nil]; exact hcs, by omega, by omega,
            takeRun_all_of_eq_length _ rest hr, Or.inl rfl⟩
        · have hdlen := List.length_drop (takeRun isDigitChar rest) rest
          rw [hdrop] at hdlen
          simp only [List.length_cons] at hdlen
          rcases hcase2 with ⟨hup, hnw2, hn⟩ | ⟨hw, hn⟩
          · have ht2 : t2 = [] := by
              have : t2.length = 0 := by omega
              exact List.eq_nil_of_length_eq_zero this
            subst ht2
            have hrest : rest = rest.take (takeRun isDigitChar rest) ++ [c2] := by
              conv_lhs => rw [(List.take_append_drop (takeRun isDigitChar rest) rest).symm]
              rw [hdrop]
            have hxlen : (rest.take (takeRun isDigitChar rest)).length =
                takeRun isDigitChar rest := by
              rw [List.length_take]
              omega
            refine ⟨rest.take (takeRun isDigitChar rest), [c2], ?_, by omega, by omega, ?_,
              Or.inr ⟨c2, rfl, hup⟩⟩
            · rw [hcs]
              exact congrArg _ hrest
            · intro a ha
              exact takeRun_take _ rest a ha
          · omega
    · intro h
      rcases h with ⟨x, y, hs, hx1, hx3, hy1, hy5, hxc, hyc⟩ | ⟨d, t, hs, hd1, hd5, hdc, ht⟩
      · unfold regexAccepts altMatch
        rw [hs, shapeAMatch_full hx1 hx3 hy1 hy5 hxc hyc]
        simp only [List.length_append, List.length_cons, Option.some.injEq]
        omega
      · have hreg : ∀ a ∈ s.data, isRegChar a = true := by
          rw [hs]
          intro a ha
          rcases List.mem_cons.mp ha with rfl | ha2
          · decide
          · rcases List.mem_append.mp ha2 with hd | htm
            · exact isRegChar_of_digit (hdc a hd)
            · rcases ht with rfl | ⟨c, rfl, hcup⟩
              · simp at htm
              · rw [List.mem_singleton.mp htm]
                exact isRegChar_of_upper hcup
        unfold regexAccepts altMatch
        rw [shapeAMatch_none_of_all_reg hreg]
        rcases ht with rfl | ⟨c, rfl, hcup⟩
        · have hs2 : s.data = 'N' :: d := by
            rw [hs, List.append_nil]
          rw [hs2, shapeBMatch_full_nolet hd1 hd5 hdc]
          simp only [List.length_cons, List.length_append, List.length_nil,
            Option.some.injEq]
          omega
        · rw [hs, shapeBMatch_full_letter hd1 hd5 hdc hcup]
          simp only [List.length_cons, List.length_append, List.length_nil,
            List.length_singleton, Option.some.injEq]
          omega
  · unfold regexAccepts
    decide

/-- **C8** — for every tabular input and every line-delimited input, the
extractor's output is sorted (lexicographically, by code point) and free of
duplicates, and extraction is deterministic: the same input always yields
the same output list. -/
theorem c8_extract_sorted_dedup :
    (∀ (df : DataFrame) (col : ColSel),
      List.Sorted (· ≤ ·) (extract_regs df col) ∧ (extract_regs df col).Nodup ∧
      extract_regs df col = extract_regs df col) ∧
    (∀ content : String,
      List.Sorted (· ≤ ·) (loadRegsTxt content) ∧ (loadRegsTxt content).Nodup ∧
      loadRegsTxt content = loadRegsTxt content) := by
  constructor
  · intro df col
    exact ⟨List.sorted_insertionSort _ _,
      (List.perm_insertionSort _ _).nodup_iff.mpr (List.nodup_dedup _), rfl⟩
  · intro content
    exact ⟨List.sorted_insertionSort _ _,
      (List.perm_insertionSort _ _).nodup_iff.mpr (List.nodup_dedup _), rfl⟩

end PhotoChecker
